import Mathlib

/-! Shallow embedding of the p_managment repository: download_data.py
(ticker loading, incremental sync planning, upsert reconciliation into the
stock_data table) and remove_abondoned_data.py (staleness sweeper).
Dates are embedded as integer day numbers: the code stores dates as
ISO-8601 text, whose lexicographic order (and hence SQL MAX over the text
column) agrees with calendar-day order. Numeric cells are embedded as
exact rationals. -/

/-- A numeric cell of the pandas frame handled by upsert_to_db: pd.NA
(also the fill value used for an absent expected column), a float NaN
coming from the provider, or an actual number. -/
inductive Cell where
  | missing
  | nan
  | real (q : Rat)
deriving DecidableEq

/-- A value bound as an SQL parameter of the INSERT OR REPLACE statement:
SQL NULL (Python None), a real number, or a float NaN. NaN is
representable at the binding interface but never produced by the
coercions of upsert_to_db. -/
inductive SqlVal where
  | null
  | real (q : Rat)
  | nan
deriving DecidableEq

/-- One fetched daily bar after df.reset_index(): the Date column plus
the provider numeric columns, which upsert_to_db renames onto the
canonical schema. The provider column written AdjClose here is named
Adj Close in the frame. A frame lacking one of the expected columns is
embedded with that field equal to Cell.missing on every row, matching
the column fill df[col] = pd.NA performed by upsert_to_db. -/
structure RawBar where
  Date : Int
  Open : Cell
  High : Cell
  Low : Cell
  Close : Cell
  AdjClose : Cell
  Volume : Cell
deriving DecidableEq

/-- One row of the stock_data table, following the CREATE TABLE of
download_data.py; the column named open there is written open_ here. -/
structure Row where
  ticker : String
  date : Int
  open_ : SqlVal
  high : SqlVal
  low : SqlVal
  close : SqlVal
  adj_close : SqlVal
  volume : SqlVal
deriving DecidableEq

/-- The stock_data table, as the list of its rows. -/
abbrev Table := List Row

/-- The null coercions of upsert_to_db applied to one numeric cell:
df.where(pd.notnull(df), None) followed by the per-parameter pd.isna
check. Both pd.NA and NaN become None (bound as SQL NULL); an actual
number passes through unchanged. -/
def bindParam : Cell → SqlVal
  | Cell.missing => SqlVal.null
  | Cell.nan => SqlVal.null
  | Cell.real q => SqlVal.real q

/-- The parameter record bound for one row of the frame by upsert_to_db:
column rename, reindexing to expected_cols (absent columns already
embedded as Cell.missing), date astype(str) (the canonical day value
itself in this embedding), and null coercion of every numeric field. -/
def toRow (ticker : String) (b : RawBar) : Row :=
  { ticker := ticker, date := b.Date, open_ := bindParam b.Open,
    high := bindParam b.High, low := bindParam b.Low,
    close := bindParam b.Close, adj_close := bindParam b.AdjClose,
    volume := bindParam b.Volume }

/-- Collision of two rows on the primary key (ticker, date). -/
def sameKey (x r : Row) : Bool := x.ticker == r.ticker && x.date == r.date

/-- INSERT OR REPLACE INTO stock_data: any row conflicting on the
primary key is removed and the new row is inserted. -/
def upsertRow (r : Row) (t : Table) : Table :=
  t.filter (fun x => !(sameKey x r)) ++ [r]

/-- The row insertion loop of upsert_to_db over the prepared parameter
rows, in frame order. -/
def insertRows (rs : List Row) (t : Table) : Table :=
  rs.foldl (fun acc r => upsertRow r acc) t

/-- upsert_to_db df, for the frame holding the fetched bars of one
ticker (the caller has already stamped df with the ticker). The result
pair is (final table state, Python return value). The empty frame
returns early without touching storage; otherwise every prepared row is
inserted with INSERT OR REPLACE inside one engine.begin() transaction.
The function has no return statement carrying a value, so the returned
value is None in both branches. -/
def upsert_to_db (ticker : String) (bars : List RawBar) (t : Table) :
    Table × Option Nat :=
  if bars.isEmpty then (t, none)
  else (insertRows (bars.map (toRow ticker)) t, none)

/-- The insertion loop of upsert_to_db under a statement failure model:
ok r tells whether the INSERT of row r succeeds; the loop stops at the
first failing statement (the raised exception aborts the loop). -/
def runInserts (ok : Row → Bool) : List Row → Table → Option Table
  | [], t => some t
  | r :: rs, t => if ok r then runInserts ok rs (upsertRow r t) else none

/-- upsert_to_db under the statement failure model: the engine.begin()
context manager commits the batch when every statement succeeded and
rolls the table back to its entry state when the loop raised. -/
def upsert_to_db_run (ok : Row → Bool) (ticker : String)
    (bars : List RawBar) (t : Table) : Table :=
  if bars.isEmpty then t
  else
    match runInserts ok (bars.map (toRow ticker)) t with
    | some t2 => t2
    | none => t

/-- Configured history window of download_data.py, in years. -/
def years : Int := 20

/-- Configured abandonment threshold of download_data.py, in days. -/
def abandon_days : Int := 180

/-- start_full = today - datetime.timedelta(days=years * 365). -/
def start_full (today : Int) : Int := today - years * 365

/-- get_latest_date: SELECT MAX(date) FROM stock_data WHERE
ticker = :ticker, returning None when the ticker has no rows. -/
def get_latest_date (t : Table) (ticker : String) : Option Int :=
  ((t.filter (fun r => r.ticker == ticker)).map (fun r => r.date)).max?

/-- The per-ticker decision taken by the main sync loop. -/
inductive SyncDecision where
  | fetch (startDate stopDate : Int)
  | skipAbandoned
  | skipCurrent
deriving DecidableEq

/-- The decision logic of the main loop body of download_data.py: with a
stored latest date, first the abandonment check, then the up-to-date
check, else fetch from latest + 1 day through today; with no stored
rows, fetch from start_full through today. -/
def plan (latest : Option Int) (today : Int) : SyncDecision :=
  match latest with
  | some d =>
    if today - d > abandon_days then SyncDecision.skipAbandoned
    else if d + 1 > today then SyncDecision.skipCurrent
    else SyncDecision.fetch (d + 1) today
  | none => SyncDecision.fetch (start_full today) today

/-- The loop body decision computed from the stored table. -/
def planFor (t : Table) (ticker : String) (today : Int) : SyncDecision :=
  plan (get_latest_date t ticker) today

/-- First occurrence deduplication, as pandas unique and as the key set
of SQL GROUP BY. -/
def uniqueFold {α : Type} [DecidableEq α] (l : List α) : List α :=
  l.foldl (fun acc v => if v ∈ acc then acc else acc ++ [v]) []

/-- SELECT ticker, MAX(date) FROM stock_data GROUP BY ticker. -/
def group_latest (t : Table) : List (String × Int) :=
  (uniqueFold (t.map (fun r => r.ticker))).filterMap
    (fun tk =>
      (((t.filter (fun r => r.ticker == tk)).map (fun r => r.date)).max?).map
        (fun d => (tk, d)))

/-- Configured staleness cutoff of remove_abondoned_data.py, in days. -/
def cutoff_days : Int := 180

/-- abandoned = df[df[days_since_update] > cutoff_days]. -/
def abandonedOf (today : Int) (t : Table) : List (String × Int) :=
  (group_latest t).filter (fun p => today - p.2 > cutoff_days)

/-- The database file: the stock_data table, and the optional auxiliary
tickers table (none meaning the table is absent from sqlite_master),
holding the values of its symbol column. -/
structure DB where
  stock_data : Table
  tickers : Option (List String)
deriving DecidableEq

/-- Observable outcome of one run of remove_abondoned_data.py: final
database state, the selected abandoned tickers, whether the missing
table diagnostic was printed, and the uncaught Python exception if the
run crashed. -/
structure SweepOut where
  db : DB
  abandoned : List String
  skippedMissingTable : Bool
  err : Option String
deriving DecidableEq

/-- remove_abondoned_data.py: select the abandoned tickers, then, when
the tickers table exists, loop deleting each of them from it. The module
imports only create_engine from sqlalchemy, so the name text used in the
loop body is unbound: the first iteration raises NameError before any
DELETE executes, the engine.begin() transaction aborts, and no row is
deleted. When the table is absent the deletion step is skipped with a
printed diagnostic and the run completes normally. -/
def sweep (today : Int) (db : DB) : SweepOut :=
  match db.tickers with
  | some _ =>
    if ((abandonedOf today db.stock_data).map (fun p => p.1)).isEmpty then
      { db := db, abandoned := (abandonedOf today db.stock_data).map (fun p => p.1),
        skippedMissingTable := false, err := none }
    else
      { db := db, abandoned := (abandonedOf today db.stock_data).map (fun p => p.1),
        skippedMissingTable := false,
        err := some "NameError: name text is not defined" }
  | none =>
    { db := db, abandoned := (abandonedOf today db.stock_data).map (fun p => p.1),
      skippedMissingTable := true, err := none }

/-- A cell of the symbol column of the tickers CSV as read by pandas:
NaN (a missing cell) or a string value. -/
inductive PdVal where
  | nan
  | str (s : String)
deriving DecidableEq

/-- astype(str): the float NaN of a missing cell becomes the literal
string nan. -/
def astype_str : PdVal → PdVal
  | PdVal.nan => PdVal.str "nan"
  | PdVal.str s => PdVal.str s

/-- A .str series transform: applies to string values and would leave a
NaN untouched. -/
def strMap (f : String → String) : PdVal → PdVal
  | PdVal.nan => PdVal.nan
  | PdVal.str s => PdVal.str (f s)

/-- Python str.strip(): remove leading and trailing whitespace. -/
def pyStrip (s : String) : String :=
  String.mk (((s.data.dropWhile Char.isWhitespace).reverse.dropWhile
    Char.isWhitespace).reverse)

/-- Python str.upper(): uppercase every character. -/
def pyUpper (s : String) : String :=
  String.mk (s.data.map Char.toUpper)

/-- dropna(): removes the NaN values of the series. -/
def dropna (l : List PdVal) : List PdVal :=
  l.filter (fun v => !(v == PdVal.nan))

/-- The ticker loading pipeline of download_data.py applied to the
symbol column: astype(str).str.strip().str.upper().dropna().unique(),
with .strip() embedded as pyStrip and .upper() as pyUpper. -/
def load_tickers (col : List PdVal) : List PdVal :=
  uniqueFold
    (dropna (((col.map astype_str).map (strMap pyStrip)).map
      (strMap pyUpper)))

/-- The numeric field values of a stored row, in schema order. -/
def rowVals (r : Row) : List SqlVal :=
  [r.open_, r.high, r.low, r.close, r.adj_close, r.volume]

/-- The numeric cells of a fetched bar, in schema order. -/
def barCells (b : RawBar) : List Cell :=
  [b.Open, b.High, b.Low, b.Close, b.AdjClose, b.Volume]

/-- The primary key of a row. -/
def rowKey (r : Row) : String × Int := (r.ticker, r.date)

/-- The table satisfies the primary key constraint: no two rows share
the (ticker, date) pair. -/
def uniqueKeys (t : Table) : Prop := (t.map rowKey).Nodup

/-- A row whose key collides with none of the given rows. -/
def noKey (rs : List Row) (x : Row) : Bool :=
  rs.all (fun r => !(sameKey x r))

/-- A stored row with every numeric field NULL, for concrete instances. -/
def sampleRow (ticker : String) (d : Int) : Row :=
  { ticker := ticker, date := d, open_ := SqlVal.null, high := SqlVal.null,
    low := SqlVal.null, close := SqlVal.null, adj_close := SqlVal.null,
    volume := SqlVal.null }

/-- A fetched bar with every numeric cell missing, for concrete
instances. -/
def sampleBar (d : Int) : RawBar :=
  { Date := d, Open := Cell.missing, High := Cell.missing,
    Low := Cell.missing, Close := Cell.missing, AdjClose := Cell.missing,
    Volume := Cell.missing }

/-- A database whose stock_data has one stale ticker also present in the
existing auxiliary tickers table. -/
def dbBug : DB := { stock_data := [sampleRow "AAA" 0], tickers := some ["AAA"] }

/-- Pushing one upsert under a list split: the left part is only
filtered. -/
theorem upsertRow_append (r : Row) (t1 t2 : Table) :
    upsertRow r (t1 ++ t2) = t1.filter (fun x => !(sameKey x r)) ++ upsertRow r t2 := by
  simp [upsertRow, List.filter_append]

/-- Unfolding of the insertion loop on a cons cell. -/
theorem insertRows_cons (r : Row) (rs : List Row) (t : Table) :
    insertRows (r :: rs) t = insertRows rs (upsertRow r t) := rfl

/-- Pushing a whole batch under a list split: the left part keeps
exactly the rows whose key none of the batch rows carries. -/
theorem insertRows_append (rs : List Row) (t1 t2 : Table) :
    insertRows rs (t1 ++ t2) = t1.filter (noKey rs) ++ insertRows rs t2 := by
  induction rs generalizing t1 t2 with
  | nil =>
    have h : noKey ([] : List Row) = fun _ => true := by
      funext x
      simp [noKey]
    simp [insertRows, h]
  | cons r rs ih =>
    rw [insertRows_cons, upsertRow_append, ih, insertRows_cons]
    have hk : ∀ x : Row, (noKey rs x && !(sameKey x r)) = noKey (r :: rs) x := by
      intro x
      simp [noKey, List.all_cons, Bool.and_comm]
    rw [List.filter_filter]
    simp only [hk]

/-- Decomposition of the insertion loop result: surviving old rows
followed by the batch image. -/
theorem insertRows_eq (rs : List Row) (t : Table) :
    insertRows rs t = t.filter (noKey rs) ++ insertRows rs [] := by
  have h := insertRows_append rs t []
  simpa using h

/-- Every row of the insertion loop result comes from the table or from
the batch. -/
theorem mem_insertRows {x : Row} (rs : List Row) (t : Table)
    (h : x ∈ insertRows rs t) : x ∈ t ∨ x ∈ rs := by
  induction rs generalizing t with
  | nil => exact Or.inl h
  | cons r rs ih =>
    rcases ih (upsertRow r t) h with h1 | h1
    · rcases List.mem_append.1 h1 with h2 | h2
      · exact Or.inl (List.mem_of_mem_filter h2)
      · simp only [List.mem_singleton] at h2
        exact Or.inr (by simp [h2])
    · exact Or.inr (List.mem_cons_of_mem r h1)

/-- A row never collides with itself under noKey of a batch holding
it. -/
theorem filter_noKey_insertRows_nil (rs : List Row) :
    (insertRows rs []).filter (noKey rs) = [] := by
  rw [List.filter_eq_nil_iff]
  intro x hx hP
  rcases mem_insertRows rs [] hx with h | h
  · simp at h
  · have hall := List.all_eq_true.1 hP x h
    simp [sameKey] at hall

/-- Filtering twice with the same predicate filters once. -/
theorem filter_idem (p : Row → Bool) (l : Table) :
    (l.filter p).filter p = l.filter p := by
  rw [List.filter_eq_self]
  intro a ha
  exact (List.mem_filter.1 ha).2

/-- The insertion loop is idempotent on the table state. -/
theorem insertRows_idem (rs : List Row) (t : Table) :
    insertRows rs (insertRows rs t) = insertRows rs t := by
  rw [insertRows_eq rs (insertRows rs t), insertRows_eq rs t, List.filter_append,
    filter_idem, filter_noKey_insertRows_nil, List.append_nil]

/-- C1: reconciliation is idempotent. For every ticker, every fetched
batch and every starting table, running upsert_to_db on the same batch
twice leaves the stored stock_data table in exactly the state one run
produces: the very same row list, hence the same rows, field values and
row count. -/
theorem claim_C1 (ticker : String) (bars : List RawBar) (t : Table) :
    (upsert_to_db ticker bars (upsert_to_db ticker bars t).1).1 =
      (upsert_to_db ticker bars t).1 := by
  cases bars with
  | nil => simp [upsert_to_db]
  | cons b bs => simp [upsert_to_db, insertRows_idem]

/-- One INSERT OR REPLACE preserves the primary key constraint. -/
theorem uniqueKeys_upsertRow (r : Row) (t : Table) (h : uniqueKeys t) :
    uniqueKeys (upsertRow r t) := by
  unfold uniqueKeys upsertRow
  rw [List.map_append, List.nodup_append]
  refine ⟨?_, by simp, ?_⟩
  · exact h.sublist (List.Sublist.map rowKey (List.filter_sublist t))
  · intro a ha hb
    simp only [List.map_cons, List.map_nil, List.mem_singleton] at hb
    rcases List.mem_map.1 ha with ⟨x, hx, hxa⟩
    have hpx := (List.mem_filter.1 hx).2
    have hkey : x.ticker = r.ticker ∧ x.date = r.date := by
      have h2 : rowKey x = rowKey r := by rw [hxa, hb]
      simpa [rowKey, Prod.ext_iff] using h2
    simp [sameKey, hkey.1, hkey.2] at hpx

/-- The insertion loop preserves the primary key constraint. -/
theorem uniqueKeys_insertRows (rs : List Row) (t : Table) (h : uniqueKeys t) :
    uniqueKeys (insertRows rs t) := by
  induction rs generalizing t with
  | nil => exact h
  | cons r rs ih => exact ih (upsertRow r t) (uniqueKeys_upsertRow r t h)

/-- The sweeper leaves the database untouched: the deletion loop either
never runs (no abandoned ticker, or no tickers table) or raises NameError
before its first DELETE executes. -/
theorem sweep_db (today : Int) (db : DB) : (sweep today db).db = db := by
  rcases db with ⟨sd, tks⟩
  cases tks with
  | none => rfl
  | some l =>
    simp only [sweep]
    split <;> rfl

/-- C2: the stock_data table never holds two rows with the same
(ticker, date) pair. An upsert of an already present key replaces the
entire row, leaving exactly the new row under that key, and the
uniqueness invariant is preserved by the reconciliation write as well as
by the sweeper (which never alters stock_data). -/
theorem claim_C2 (r : Row) (t : Table) (ticker : String)
    (bars : List RawBar) (today : Int) (db : DB) :
    ((upsertRow r t).filter (fun x => sameKey x r) = [r])
    ∧ (uniqueKeys t → uniqueKeys (upsert_to_db ticker bars t).1)
    ∧ (uniqueKeys db.stock_data → uniqueKeys (sweep today db).db.stock_data) := by
  refine ⟨?_, ?_, ?_⟩
  · unfold upsertRow
    rw [List.filter_append, List.filter_filter]
    have h1 : ∀ x : Row, (sameKey x r && !(sameKey x r)) = false := by
      intro x
      cases sameKey x r <;> rfl
    simp [h1, sameKey]
  · intro h
    cases bars with
    | nil => simpa [upsert_to_db] using h
    | cons b bs =>
      simpa [upsert_to_db] using
        uniqueKeys_insertRows ((b :: bs).map (toRow ticker)) t h
  · intro h
    rw [sweep_db]
    exact h

/-- Instance of claim_C2 at concrete inputs, discharging its
hypotheses. -/
theorem claim_C2_witness :
    ((upsertRow (sampleRow "AAA" 0) []).filter
        (fun x => sameKey x (sampleRow "AAA" 0)) = [sampleRow "AAA" 0])
    ∧ uniqueKeys (upsert_to_db "AAA" [sampleBar 0] []).1
    ∧ uniqueKeys (sweep 0 dbBug).db.stock_data := by
  have h := claim_C2 (sampleRow "AAA" 0) [] "AAA" [sampleBar 0] 0 dbBug
  exact ⟨h.1, h.2.1 (by simp [uniqueKeys]),
    h.2.2 (by simp [uniqueKeys, dbBug, rowKey])⟩

/-- C3: the planned fetch range. With no stored rows for the symbol the
decision is a fetch from start_full (today minus the full history
window) through today. With a stored latest date d not later than today
and a symbol not abandoned, the planned start is always d + 1; when
d + 1 is past today the decision is skipCurrent, never a fetch. -/
theorem claim_C3 (t : Table) (ticker : String) (today : Int) :
    (get_latest_date t ticker = none →
      planFor t ticker today = SyncDecision.fetch (start_full today) today)
    ∧ (∀ d : Int, get_latest_date t ticker = some d → d ≤ today →
        today - d ≤ abandon_days →
        planFor t ticker today =
          if d + 1 > today then SyncDecision.skipCurrent
          else SyncDecision.fetch (d + 1) today) := by
  constructor
  · intro h
    simp [planFor, h, plan]
  · intro d h hd hab
    simp only [planFor, h, plan]
    rw [if_neg (by omega)]

/-- Instance of claim_C3 at concrete inputs, discharging its
hypotheses. -/
theorem claim_C3_witness :
    planFor [] "AAA" 10 = SyncDecision.fetch (start_full 10) 10
    ∧ planFor [sampleRow "AAA" 5] "AAA" 10 = SyncDecision.fetch 6 10 := by
  refine ⟨(claim_C3 [] "AAA" 10).1 (by decide), ?_⟩
  have h := (claim_C3 [sampleRow "AAA" 5] "AAA" 10).2 5 (by decide)
    (by decide) (by decide)
  simpa using h

/-- C4: the abandonment boundary is strict. With a stored latest date d,
a staleness of exactly abandon_days yields a fetch starting at d + 1,
while a staleness of abandon_days + 1 or more yields skipAbandoned with
no fetch. -/
theorem claim_C4 (t : Table) (ticker : String) (today d : Int)
    (h : get_latest_date t ticker = some d) :
    (today - d = abandon_days →
      planFor t ticker today = SyncDecision.fetch (d + 1) today)
    ∧ (today - d ≥ abandon_days + 1 →
      planFor t ticker today = SyncDecision.skipAbandoned) := by
  have h180 : abandon_days = (180 : Int) := rfl
  constructor
  · intro he
    rw [h180] at he
    simp only [planFor, h, plan, h180]
    rw [if_neg (by omega), if_neg (by omega)]
  · intro hge
    rw [h180] at hge
    simp only [planFor, h, plan, h180]
    rw [if_pos (by omega)]

/-- Instance of claim_C4 at concrete inputs, discharging its
hypotheses. -/
theorem claim_C4_witness :
    planFor [sampleRow "AAA" 0] "AAA" 180 = SyncDecision.fetch 1 180
    ∧ planFor [sampleRow "AAA" 0] "AAA" 181 = SyncDecision.skipAbandoned := by
  constructor
  · exact (claim_C4 [sampleRow "AAA" 0] "AAA" 180 0 (by decide)).1 (by decide)
  · exact (claim_C4 [sampleRow "AAA" 0] "AAA" 181 0 (by decide)).2 (by decide)

/-- C5: evaluation at the failing input. Over a database whose
stock_data holds ticker AAA last updated 200 days ago and whose
auxiliary tickers table exists and contains AAA, the sweeper selects AAA
as abandoned, yet raises NameError (the module never imports the
sqlalchemy name text) and leaves the tickers table unchanged instead of
removing AAA from it, refuting the removal part of the claim. -/
theorem claim_C5_bug :
    (sweep 200 dbBug).abandoned = ["AAA"]
    ∧ (sweep 200 dbBug).err = some "NameError: name text is not defined"
    ∧ (sweep 200 dbBug).db = dbBug := by decide

/-- C6: counterexample. The claim says upsert_to_db returns the count of
rows written (1 for a singleton batch, 0 for the empty batch); the
function has no return value, so it yields None in both cases. -/
theorem claim_C6_cex :
    (upsert_to_db "AAA" [sampleBar 0] []).2 ≠ some 1
    ∧ (upsert_to_db "AAA" ([] : List RawBar) []).2 ≠ some 0 := by decide

/-- C6 as amended: upsert_to_db returns no value (Python None) for every
batch rather than a rows-written count, and for an empty batch it
performs no storage write, leaving the table unchanged. -/
theorem claim_C6 (ticker : String) (bars : List RawBar) (t : Table) :
    (upsert_to_db ticker bars t).2 = none
    ∧ (bars = [] → (upsert_to_db ticker bars t).1 = t) := by
  cases bars with
  | nil => exact ⟨rfl, fun _ => rfl⟩
  | cons b bs => exact ⟨rfl, fun h => by cases h⟩

/-- Instance of claim_C6 at concrete inputs, discharging its
hypothesis. -/
theorem claim_C6_witness :
    (upsert_to_db "AAA" [] []).2 = none
    ∧ (upsert_to_db "AAA" [] []).1 = [] := by
  have h := claim_C6 "AAA" [] []
  exact ⟨h.1, h.2 rfl⟩

/-- When every statement succeeds the failing loop agrees with the plain
insertion loop. -/
theorem runInserts_ok (ok : Row → Bool) (rs : List Row) (t : Table)
    (h : ∀ r ∈ rs, ok r = true) :
    runInserts ok rs t = some (insertRows rs t) := by
  induction rs generalizing t with
  | nil => rfl
  | cons r rs ih =>
    have hr : ok r = true := h r (List.mem_cons_self r rs)
    simp only [runInserts, hr, if_true, insertRows_cons]
    exact ih (upsertRow r t) (fun x hx => h x (List.mem_cons_of_mem r hx))

/-- When some statement fails the failing loop raises. -/
theorem runInserts_bad (ok : Row → Bool) (rs : List Row) (t : Table)
    (h : ∃ r ∈ rs, ok r = false) : runInserts ok rs t = none := by
  induction rs generalizing t with
  | nil =>
    rcases h with ⟨r, hr, _⟩
    cases hr
  | cons a rs ih =>
    cases hA : ok a with
    | false => simp [runInserts, hA]
    | true =>
      simp only [runInserts, hA, if_true]
      rcases h with ⟨r, hr, hok⟩
      rcases List.mem_cons.1 hr with h1 | h1
      · rw [h1] at hok
        rw [hA] at hok
        cases hok
      · exact ih (upsertRow a t) ⟨r, h1, hok⟩

/-- C7: the batch is atomic. Under the statement failure model, if any
insert of the batch fails the whole engine.begin() transaction rolls
back and the stored table is exactly the entry state; if every insert
succeeds the committed state is the full batch application of
upsert_to_db. -/
theorem claim_C7 (ok : Row → Bool) (ticker : String) (bars : List RawBar)
    (t : Table) :
    ((∃ b ∈ bars, ok (toRow ticker b) = false) →
      upsert_to_db_run ok ticker bars t = t)
    ∧ ((∀ b ∈ bars, ok (toRow ticker b) = true) →
      upsert_to_db_run ok ticker bars t = (upsert_to_db ticker bars t).1) := by
  constructor
  · intro h
    cases bars with
    | nil =>
      rcases h with ⟨b, hb, _⟩
      cases hb
    | cons b bs =>
      have h2 : ∃ r ∈ (b :: bs).map (toRow ticker), ok r = false := by
        rcases h with ⟨x, hx, hox⟩
        exact ⟨toRow ticker x, List.mem_map_of_mem (toRow ticker) hx, hox⟩
      simp only [upsert_to_db_run, List.isEmpty_cons, Bool.false_eq_true,
        if_false]
      rw [runInserts_bad ok _ t h2]
  · intro h
    cases bars with
    | nil => rfl
    | cons b bs =>
      have h2 : ∀ r ∈ (b :: bs).map (toRow ticker), ok r = true := by
        intro r hr
        rcases List.mem_map.1 hr with ⟨x, hx, hxx⟩
        rw [← hxx]
        exact h x hx
      simp only [upsert_to_db_run, upsert_to_db, List.isEmpty_cons,
        Bool.false_eq_true, if_false]
      rw [runInserts_ok ok _ t h2]

/-- Instance of claim_C7 at concrete inputs, discharging its
hypotheses. -/
theorem claim_C7_witness :
    upsert_to_db_run (fun _ => false) "AAA" [sampleBar 0] [] = []
    ∧ upsert_to_db_run (fun _ => true) "AAA" [sampleBar 0] []
        = (upsert_to_db "AAA" [sampleBar 0] []).1 := by
  constructor
  · exact (claim_C7 (fun _ => false) "AAA" [sampleBar 0] []).1
      ⟨sampleBar 0, by simp, rfl⟩
  · exact (claim_C7 (fun _ => true) "AAA" [sampleBar 0] []).2
      (fun b _ => rfl)

/-- C8: null coercion. Every numeric field of the stored parameter
record is the bindParam coercion of the corresponding provider cell;
both the missing sentinel and NaN coerce to the single SQL NULL
representation, and no cell is ever bound as a NaN. -/
theorem claim_C8 (ticker : String) (b : RawBar) :
    rowVals (toRow ticker b) = (barCells b).map bindParam
    ∧ (∀ c : Cell, (c = Cell.missing ∨ c = Cell.nan) →
        bindParam c = SqlVal.null)
    ∧ (∀ c : Cell, bindParam c ≠ SqlVal.nan) := by
  refine ⟨rfl, ?_, ?_⟩
  · rintro c (rfl | rfl) <;> rfl
  · intro c
    cases c <;> simp [bindParam]

/-- Instance of claim_C8 at concrete inputs, discharging its
hypothesis. -/
theorem claim_C8_witness :
    rowVals (toRow "AAA" (sampleBar 0)) = (barCells (sampleBar 0)).map bindParam
    ∧ bindParam Cell.missing = SqlVal.null
    ∧ bindParam Cell.nan ≠ SqlVal.nan := by
  have h := claim_C8 "AAA" (sampleBar 0)
  exact ⟨h.1, h.2.1 Cell.missing (Or.inl rfl), h.2.2 Cell.nan⟩

/-- C9: the sweep is frame preserving on price history. For every
starting database state the stock_data table after a sweep run is
exactly the starting one; only the auxiliary tickers list could ever be
touched. -/
theorem claim_C9 (today : Int) (db : DB) :
    (sweep today db).db.stock_data = db.stock_data := by
  rw [sweep_db]

/-- Membership in the first occurrence deduplication fold. -/
theorem mem_uniqueFold_aux {α : Type} [DecidableEq α]
    (l : List α) (acc : List α) (x : α) :
    x ∈ l.foldl (fun a v => if v ∈ a then a else a ++ [v]) acc
      ↔ x ∈ acc ∨ x ∈ l := by
  induction l generalizing acc with
  | nil => simp
  | cons v l ih =>
    rw [List.foldl_cons, ih]
    by_cases hv : v ∈ acc
    · have hxv : x = v → x ∈ acc := fun he => he ▸ hv
      simp only [hv, if_true, List.mem_cons]
      tauto
    · simp only [hv, if_false, List.mem_append, List.mem_singleton,
        List.mem_cons]
      tauto

/-- unique() keeps every value of the series. -/
theorem mem_uniqueFold {α : Type} [DecidableEq α] {l : List α} {x : α}
    (h : x ∈ l) : x ∈ uniqueFold l := by
  unfold uniqueFold
  exact (mem_uniqueFold_aux l [] x).2 (Or.inr h)

/-- After astype(str) every cell of the series is a string. -/
theorem astype_str_isStr (c : PdVal) : ∃ s, astype_str c = PdVal.str s := by
  cases c with
  | nan => exact ⟨"nan", rfl⟩
  | str s => exact ⟨s, rfl⟩

/-- C10: the ticker loader never drops missing entries. After the
astype(str), strip and upper stages no cell of the series is NaN, so the
dropna call removes nothing, and a missing cell of the symbol column
survives the whole pipeline as the literal ticker string NAN in the
deduplicated result of load_tickers. -/
theorem claim_C10 (col : List PdVal) :
    dropna (((col.map astype_str).map (strMap pyStrip)).map
        (strMap pyUpper))
      = ((col.map astype_str).map (strMap pyStrip)).map
          (strMap pyUpper)
    ∧ (PdVal.nan ∈ col → PdVal.str "NAN" ∈ load_tickers col) := by
  have h1 : dropna (((col.map astype_str).map (strMap pyStrip)).map
      (strMap pyUpper))
      = ((col.map astype_str).map (strMap pyStrip)).map
          (strMap pyUpper) := by
    rw [dropna, List.filter_eq_self]
    intro v hv
    rcases List.mem_map.1 hv with ⟨v2, hv2, hv2e⟩
    rcases List.mem_map.1 hv2 with ⟨v3, hv3, hv3e⟩
    rcases List.mem_map.1 hv3 with ⟨c, _, hce⟩
    rcases astype_str_isStr c with ⟨s, hs⟩
    rw [← hv2e, ← hv3e, ← hce, hs]
    simp [strMap]
  refine ⟨h1, fun h => ?_⟩
  unfold load_tickers
  rw [h1]
  apply mem_uniqueFold
  have h2 : PdVal.str "NAN"
      = strMap pyUpper (strMap pyStrip (astype_str PdVal.nan)) := by
    decide
  rw [h2]
  exact List.mem_map_of_mem (strMap pyUpper)
    (List.mem_map_of_mem (strMap pyStrip)
      (List.mem_map_of_mem astype_str h))

/-- Instance of claim_C10 at concrete inputs, discharging its
hypothesis. -/
theorem claim_C10_witness :
    PdVal.str "NAN" ∈ load_tickers [PdVal.nan] :=
  (claim_C10 [PdVal.nan]).2 (by decide)
